import Mathlib

/-!
Verification of the `pymacaron-gcp` packaging script (`setup.py`) and of the
deployment-pipeline design that the repository ships as scripts.

The first part is a shallow embedding of `setup.py`: the interpreter state the
script touches (the argument vector, the optional `PKG-INFO` file next to the
script, the optional `README.md`) is an explicit `Env`, and running the script
is a total function returning either the Python exception it would raise or a
record of the keyword arguments it passes to `setup()`.
-/

namespace PymacaronGcp

/-- Equality on `Except` is decidable when it is on both components. -/
def exceptDecEq {ε α : Type} [DecidableEq ε] [DecidableEq α] :
    (a b : Except ε α) → Decidable (a = b)
  | .ok a, .ok b =>
    if h : a = b then .isTrue (by rw [h]) else .isFalse (fun hc => h (Except.ok.inj hc))
  | .error a, .error b =>
    if h : a = b then .isTrue (by rw [h]) else .isFalse (fun hc => h (Except.error.inj hc))
  | .ok _, .error _ => .isFalse (fun hc => Except.noConfusion hc)
  | .error _, .ok _ => .isFalse (fun hc => Except.noConfusion hc)

instance {ε α : Type} [DecidableEq ε] [DecidableEq α] : DecidableEq (Except ε α) :=
  exceptDecEq

/-- Whether `pat` is a prefix of `l`, on character lists. -/
def prefixChars : List Char → List Char → Bool
  | [], _ => true
  | _ :: _, [] => false
  | p :: ps, x :: xs => p == x && prefixChars ps xs

/-- Whether `pat` occurs as a contiguous run inside `l`, on character lists. -/
def infixChars (pat : List Char) : List Char → Bool
  | [] => prefixChars pat []
  | x :: xs => prefixChars pat (x :: xs) || infixChars pat xs

/-- Python's `sub in s` substring test. -/
def containsSub (s sub : String) : Bool :=
  infixChars sub.data s.data

/-- Python's `l.split(' ')` on a character list: split at every single
occurrence of `c`, keeping empty pieces. -/
def splitOnChar (c : Char) : List Char → List (List Char)
  | [] => [[]]
  | x :: xs =>
    if x == c then [] :: splitOnChar c xs
    else
      match splitOnChar c xs with
      | h :: t => (x :: h) :: t
      | [] => [[x]]

/-- Python's `l.split(' ')`. -/
def pySplitSpace (s : String) : List String :=
  (splitOnChar ' ' s.data).map (fun cs => ⟨cs⟩)

/-- Python's `s.strip()`: drop leading and trailing whitespace. -/
def pyStrip (s : String) : String :=
  ⟨((s.data.dropWhile Char.isWhitespace).reverse.dropWhile Char.isWhitespace).reverse⟩

/-- The exceptions `setup.py` can raise before (or instead of) calling `setup()`. -/
inductive PyErr where
  /-- `sys.argv[-2]` on an argv with fewer than two elements. -/
  | indexError
  /-- `Exception("Please set a version with --version x.y.z")`. -/
  | missingVersion
  /-- the unpacking `_, version = l.split(' ')` sees a list of length other than 2. -/
  | valueError
  /-- `open(.../README.md)` on a missing file. -/
  | fileNotFound
deriving DecidableEq, Repr

/-- The observable input of one invocation of `setup.py`: the argument vector
`sys.argv`, the lines of `PKG-INFO` when that file exists next to the script,
and the contents of `README.md` when that file exists. -/
structure Env where
  argv : List String
  pkgInfo : Option (List String)
  readme : Option String
deriving Repr

/-- Python truthiness of the `version` variable: `None` and `""` are falsy. -/
def pyFalsy : Option String → Bool
  | none => true
  | some s => s.data.isEmpty

/-- Lines 24-26 of `setup.py`: iterate over the lines of `PKG-INFO`; every line
containing `"Version"` is split on single spaces and unpacked as
`_, version = l.split(' ')`, overwriting `version`; unpacking anything but a
two-element list raises `ValueError`. -/
def parseVersionLoop : List String → Option String → Except PyErr (Option String)
  | [], v => .ok v
  | l :: rest, v =>
    if containsSub l "Version" then
      match pySplitSpace l with
      | [_, x] => parseVersionLoop rest (some x)
      | _ => .error .valueError
    else parseVersionLoop rest v

/-- Lines 9-12 of `setup.py`, with `lastA = sys.argv[-1]` and
`stl = sys.argv[-2]`: when the second-to-last argument is `--version` and
`sdist` appears, `version` becomes the last argument and the two `pop()`
calls drop the last two elements of `sys.argv`. -/
def afterCli (env : Env) (lastA stl : String) : Option String × List String :=
  if stl == "--version" && env.argv.contains "sdist"
  then (some lastA, env.argv.dropLast.dropLast)
  else (none, env.argv)

/-- Lines 14-28 of `setup.py`, acting on the `version` and `sys.argv` left by
lines 9-12: raise on `sdist` without a truthy version (lines 14-19), otherwise
parse `PKG-INFO` when present (lines 21-26) or print the warning (line 28).
Returns the resolved `version`, the final argument vector, and whether the
warning was printed. -/
def resolveRest (env : Env) (version : Option String) (argv : List String) :
    Except PyErr (Option String × List String × Bool) :=
  if argv.contains "sdist" && pyFalsy version then .error .missingVersion
  else if pyFalsy version then
    if argv.contains "sdist" then .error .missingVersion
    else
      match env.pkgInfo with
      | some lines => (parseVersionLoop lines version).map (fun v => (v, argv, false))
      | none => .ok (version, argv, true)
  else .ok (version, argv, false)

/-- Lines 9-28 of `setup.py` once `sys.argv` is known to have at least two
elements. -/
def resolveCore (env : Env) (lastA stl : String) :
    Except PyErr (Option String × List String × Bool) :=
  resolveRest env (afterCli env lastA stl).1 (afterCli env lastA stl).2

/-- Lines 7-28 of `setup.py`: `sys.argv[-2]` raises `IndexError` when argv has
fewer than two elements; otherwise defer to `resolveCore`. -/
def resolveVersion (env : Env) : Except PyErr (Option String × List String × Bool) :=
  match env.argv.reverse with
  | lastA :: stl :: _ => resolveCore env lastA stl
  | _ => .error .indexError

/-- Lines 30-31 of `setup.py`: `if version: version = version.strip()` — the
strip only happens when `version` is truthy. -/
def stripIfTruthy (v : Option String) : Option String :=
  if pyFalsy v then v else v.map pyStrip

/-- The classifier list passed to `setup()` (lines 60-68 of `setup.py`). -/
def theClassifiers : List String :=
  [ "Environment :: Web Environment",
    "Intended Audience :: Developers",
    "License :: OSI Approved :: BSD License",
    "Operating System :: OS Independent",
    "Programming Language :: Python",
    "Topic :: Internet :: WWW/HTTP :: Dynamic Content",
    "Topic :: Software Development :: Libraries :: Python Modules" ]

/-- The keyword arguments of the `setup()` call (lines 39-69 of `setup.py`),
together with the argument vector at the moment of the call and whether the
version warning was printed. -/
structure SetupCall where
  version : Option String
  name : String
  url : String
  license : String
  author : String
  author_email : String
  description : String
  long_description : String
  long_description_content_type : String
  install_requires : List String
  tests_require : List String
  test_suite : String
  zip_safe : Bool
  platforms : String
  classifiers : List String
  argvAtCall : List String
  warned : Bool
deriving DecidableEq, Repr

/-- Builds the `setup()` call of lines 39-69: every field other than `version`
and `long_description` is a literal constant of the file. -/
def mkSetupCall (version : Option String) (argv : List String) (warned : Bool)
    (long_description : String) : SetupCall :=
  { version := version
    name := "pymacaron-gcp"
    url := "https://github.com/pymacaron/pymacaron-gcp"
    license := "BSD"
    author := "Erwan Lemonnier"
    author_email := "erwan@lemonnier.se"
    description := "PyMacaron deployment pipelines towards Google Kubernetes Engine (GKE) and Cloud Run (GCR)"
    long_description := long_description
    long_description_content_type := "text/markdown"
    install_requires := []
    tests_require := ["nose", "mock", "pep8"]
    test_suite := "nose.collector"
    zip_safe := false
    platforms := "any"
    classifiers := theClassifiers
    argvAtCall := argv
    warned := warned }

/-- Running `setup.py` on an `Env`: resolve the version (lines 7-28), strip
it when truthy (lines 30-31), read `README.md` (lines 34-37, `FileNotFoundError`
when absent), then call `setup()` (lines 39-69). -/
def runSetup (env : Env) : Except PyErr SetupCall := do
  let (v, argv, warned) ← resolveVersion env
  let v := stripIfTruthy v
  match env.readme with
  | none => .error .fileNotFound
  | some ld => .ok (mkSetupCall v argv warned ld)

/-- The version supplied on the command line, when lines 9-10 take it: the last
argument, provided the second-to-last is `--version` and `sdist` appears. -/
def cliVersion (env : Env) : Option String :=
  match env.argv.reverse with
  | lastA :: stl :: _ =>
    if stl == "--version" && env.argv.contains "sdist" then some lastA else none
  | _ => none

/-- Spec-side description of the PKG-INFO parse: the second space-separated
token of the last line containing `"Version"`, when such a line exists. -/
def secondTokenOfLastVersionLine (lines : List String) : Option String :=
  ((lines.filter (fun l => containsSub l "Version")).getLast?).bind
    (fun l => (pySplitSpace l)[1]?)

/-- Spec-side description of the whole loop: the second token of the last
`"Version"` line when one exists, the initial value otherwise. -/
def loopResultSpec (lines : List String) (v0 : Option String) : Option String :=
  match secondTokenOfLastVersionLine lines with
  | some x => some x
  | none => v0

/-- A PKG-INFO line list is well formed when every line containing `"Version"`
splits on single spaces into exactly two tokens. -/
def wellformedLines (lines : List String) : Prop :=
  ∀ l ∈ lines, containsSub l "Version" = true → (pySplitSpace l).length = 2

instance (lines : List String) : Decidable (wellformedLines lines) := by
  unfold wellformedLines; infer_instance

/-- A list of length two is a two-element list. -/
theorem length_two_exists {α : Type} (l : List α) (h : l.length = 2) :
    ∃ a b, l = [a, b] := by
  match l with
  | [] => simp at h
  | [x] => simp at h
  | [x, y] => exact ⟨x, y, rfl⟩
  | x :: y :: z :: t => simp at h

/-- On well-formed lines the loop succeeds and returns the second token of the
last `"Version"` line (or the initial value when there is none). -/
theorem parseVersionLoop_ok (lines : List String) (v0 : Option String)
    (hw : wellformedLines lines) :
    parseVersionLoop lines v0 = .ok (loopResultSpec lines v0) := by
  induction lines generalizing v0 with
  | nil => simp [parseVersionLoop, loopResultSpec, secondTokenOfLastVersionLine]
  | cons l rest ih =>
    have hrest : wellformedLines rest := fun x hx => hw x (List.mem_cons_of_mem l hx)
    by_cases hm : containsSub l "Version" = true
    · have hlen : (pySplitSpace l).length = 2 := hw l (List.mem_cons_self l rest) hm
      obtain ⟨a, b, hab⟩ := length_two_exists _ hlen
      rw [parseVersionLoop, hm]
      simp only [if_true, hab]
      rw [ih (some b) hrest]
      congr 1
      unfold loopResultSpec secondTokenOfLastVersionLine
      have hfil : List.filter (fun x => containsSub x "Version") (l :: rest)
          = l :: List.filter (fun x => containsSub x "Version") rest := by
        simp [List.filter_cons, hm]
      rw [hfil]
      match hf : rest.filter (fun x => containsSub x "Version") with
      | [] => simp [hf, hab]
      | y :: ys =>
        have hyne : y :: ys ≠ [] := by simp
        have hlast : (y :: ys).getLast? = some ((y :: ys).getLast hyne) :=
          List.getLast?_eq_getLast _ hyne
        have hz_filter : (y :: ys).getLast hyne
            ∈ List.filter (fun x => containsSub x "Version") rest := by
          rw [hf]; exact List.getLast_mem hyne
        have hz_rest : (y :: ys).getLast hyne ∈ rest := (List.mem_filter.mp hz_filter).1
        have hz_m : containsSub ((y :: ys).getLast hyne) "Version" = true := by
          simpa using (List.mem_filter.mp hz_filter).2
        obtain ⟨c, d, hcd⟩ := length_two_exists _ (hrest _ hz_rest hz_m)
        simp [hf, hlast, hcd]
    · rw [parseVersionLoop, if_neg hm]
      rw [ih v0 hrest]
      congr 1
      unfold loopResultSpec secondTokenOfLastVersionLine
      have hfil : List.filter (fun x => containsSub x "Version") (l :: rest)
          = List.filter (fun x => containsSub x "Version") rest := by
        simp [List.filter_cons, hm]
      rw [hfil]

/-- When some `"Version"` line is malformed the loop raises `ValueError`. -/
theorem parseVersionLoop_err (lines : List String) (v0 : Option String)
    (hbad : ∃ l ∈ lines, containsSub l "Version" = true ∧ (pySplitSpace l).length ≠ 2) :
    parseVersionLoop lines v0 = .error .valueError := by
  induction lines generalizing v0 with
  | nil => obtain ⟨l, hl, _⟩ := hbad; cases hl
  | cons l rest ih =>
    obtain ⟨x, hx, hxm, hxlen⟩ := hbad
    by_cases hm : containsSub l "Version" = true
    · rw [parseVersionLoop, hm]
      simp only [if_true]
      match hs : pySplitSpace l with
      | [a, b] =>
        have hrest : ∃ y ∈ rest, containsSub y "Version" = true ∧ (pySplitSpace y).length ≠ 2 := by
          rcases List.mem_cons.mp hx with h | h
          · exfalso; subst h; rw [hs] at hxlen; simp at hxlen
          · exact ⟨x, h, hxm, hxlen⟩
        exact ih (some b) hrest
      | [] => rfl
      | [a] => rfl
      | a :: b :: c :: t => rfl
    · rw [parseVersionLoop, if_neg hm]
      have hrest : ∃ y ∈ rest, containsSub y "Version" = true ∧ (pySplitSpace y).length ≠ 2 := by
        rcases List.mem_cons.mp hx with h | h
        · exfalso; subst h; exact hm hxm
        · exact ⟨x, h, hxm, hxlen⟩
      exact ih v0 hrest

/-! Bridge lemmas between the embedded script and its environment. -/

/-- A list of length at least two, seen from its tail. -/
theorem exists_rev_two {α : Type} (l : List α) (h : 2 ≤ l.length) :
    ∃ a b t, l.reverse = a :: b :: t := by
  have hlen : 2 ≤ l.reverse.length := by simpa using h
  match hr : l.reverse with
  | [] => rw [hr] at hlen; simp at hlen
  | [a] => rw [hr] at hlen; simp at hlen
  | a :: b :: t => exact ⟨a, b, t, rfl⟩

/-- Recovering the argument vector from the shape of its reverse. -/
theorem argv_decomp {α : Type} {l : List α} {a b : α} {t : List α}
    (h : l.reverse = a :: b :: t) : l = t.reverse ++ [b, a] := by
  have h2 := congrArg List.reverse h
  simpa using h2

/-- Dropping the last element twice from a list ending in two elements. -/
theorem dropLast_two {α : Type} (xs : List α) (a b : α) :
    (xs ++ [a, b]).dropLast.dropLast = xs := by
  have h1 : xs ++ [a, b] = (xs ++ [a]) ++ [b] := by simp
  rw [h1, List.dropLast_concat, List.dropLast_concat]

/-- `resolveVersion` reduces to `resolveCore` on a long-enough argv. -/
theorem resolveVersion_eq (env : Env) {lastA stl : String} {rest : List String}
    (h : env.argv.reverse = lastA :: stl :: rest) :
    resolveVersion env = resolveCore env lastA stl := by
  unfold resolveVersion
  rw [h]

/-- `cliVersion` on a long-enough argv. -/
theorem cliVersion_eq (env : Env) {lastA stl : String} {rest : List String}
    (h : env.argv.reverse = lastA :: stl :: rest) :
    cliVersion env
      = if stl == "--version" && env.argv.contains "sdist" then some lastA else none := by
  unfold cliVersion
  rw [h]

/-- A script run whose version phase raises propagates that exception. -/
theorem runSetup_error (env : Env) (e : PyErr) (h : resolveVersion env = .error e) :
    runSetup env = .error e := by
  unfold runSetup
  rw [h]
  rfl

/-- A script run whose version phase succeeds and whose README exists calls
`setup()` with the stripped version. -/
theorem runSetup_ok (env : Env) (v : Option String) (argv : List String) (w : Bool)
    (ld : String) (h : resolveVersion env = .ok (v, argv, w)) (hr : env.readme = some ld) :
    runSetup env = .ok (mkSetupCall (stripIfTruthy v) argv w ld) := by
  unfold runSetup
  rw [h]
  show (match env.readme with
    | none => Except.error PyErr.fileNotFound
    | some ld => Except.ok (mkSetupCall (stripIfTruthy v) argv w ld))
      = Except.ok (mkSetupCall (stripIfTruthy v) argv w ld)
  rw [hr]

/-- A script run with no README raises `FileNotFoundError`. -/
theorem runSetup_noReadme (env : Env) (v : Option String) (argv : List String) (w : Bool)
    (h : resolveVersion env = .ok (v, argv, w)) (hr : env.readme = none) :
    runSetup env = .error .fileNotFound := by
  unfold runSetup
  rw [h]
  show (match env.readme with
    | none => Except.error PyErr.fileNotFound
    | some ld => Except.ok (mkSetupCall (stripIfTruthy v) argv w ld))
      = Except.error PyErr.fileNotFound
  rw [hr]

/-- Inversion: a run that reaches `setup()` determines its pieces. -/
theorem runSetup_ok_inv (env : Env) (c : SetupCall) (h : runSetup env = .ok c) :
    ∃ v argv w ld, resolveVersion env = .ok (v, argv, w) ∧ env.readme = some ld ∧
      c = mkSetupCall (stripIfTruthy v) argv w ld := by
  cases hres : resolveVersion env with
  | error e => rw [runSetup_error env e hres] at h; cases h
  | ok t =>
    obtain ⟨v, argv, w⟩ := t
    cases hr : env.readme with
    | none => rw [runSetup_noReadme env v argv w hres hr] at h; cases h
    | some ld =>
      rw [runSetup_ok env v argv w ld hres hr] at h
      exact ⟨v, argv, w, ld, rfl, rfl, (Except.ok.inj h).symm⟩

/-- Every `PKG-INFO` line containing `"Version"` (when the file exists) is a
two-token line. -/
def wellformedPkg (env : Env) : Prop :=
  ∀ lines, env.pkgInfo = some lines → wellformedLines lines

/-- A nonempty string is truthy. -/
theorem pyFalsy_some_false {s : String} (h : ¬ s = "") : pyFalsy (some s) = false := by
  cases s with
  | mk d =>
    cases d with
    | nil => exact absurd rfl h
    | cons c cs => rfl

/-- Lines 9-12 when the guard holds. -/
theorem afterCli_pos (env : Env) (lastA stl : String)
    (hc : (stl == "--version" && env.argv.contains "sdist") = true) :
    afterCli env lastA stl = (some lastA, env.argv.dropLast.dropLast) := by
  unfold afterCli
  rw [hc]
  rfl

/-- Lines 9-12 when the guard fails. -/
theorem afterCli_neg (env : Env) (lastA stl : String)
    (hc : (stl == "--version" && env.argv.contains "sdist") = false) :
    afterCli env lastA stl = (none, env.argv) := by
  unfold afterCli
  rw [hc]
  rfl

/-- Lines 14-15: `sdist` with a falsy version raises the missing-version
exception. -/
theorem resolveRest_sdist (env : Env) (version : Option String) (argv : List String)
    (hsd : "sdist" ∈ argv) (hf : pyFalsy version = true) :
    resolveRest env version argv = .error .missingVersion := by
  have hcm : argv.contains "sdist" = true := List.elem_iff.mpr hsd
  unfold resolveRest
  rw [hcm, hf]
  rfl

/-- A truthy version passes through lines 14-28 untouched. -/
theorem resolveRest_truthy (env : Env) (version : Option String) (argv : List String)
    (hf : pyFalsy version = false) :
    resolveRest env version argv = .ok (version, argv, false) := by
  unfold resolveRest
  rw [hf]
  simp

/-- No `sdist`, falsy version, well-formed `PKG-INFO`: the loop's result. -/
theorem resolveRest_pkg (env : Env) (version : Option String) (argv : List String)
    (hsd : "sdist" ∉ argv) (hf : pyFalsy version = true) (lines : List String)
    (hp : env.pkgInfo = some lines) (hw : wellformedLines lines) :
    resolveRest env version argv = .ok (loopResultSpec lines version, argv, false) := by
  have hcf : argv.contains "sdist" = false := by
    rw [← Bool.not_eq_true]
    intro hcc
    exact hsd (List.elem_iff.mp hcc)
  unfold resolveRest
  rw [hcf, hf, hp]
  simp [parseVersionLoop_ok lines version hw, Except.map]

/-- No `sdist`, falsy version, malformed `PKG-INFO` line: `ValueError`. -/
theorem resolveRest_pkg_err (env : Env) (version : Option String) (argv : List String)
    (hsd : "sdist" ∉ argv) (hf : pyFalsy version = true) (lines : List String)
    (hp : env.pkgInfo = some lines)
    (hbad : ∃ l ∈ lines, containsSub l "Version" = true ∧ (pySplitSpace l).length ≠ 2) :
    resolveRest env version argv = .error .valueError := by
  have hcf : argv.contains "sdist" = false := by
    rw [← Bool.not_eq_true]
    intro hcc
    exact hsd (List.elem_iff.mp hcc)
  unfold resolveRest
  rw [hcf, hf, hp]
  simp [parseVersionLoop_err lines version hbad, Except.map]

/-- No `sdist`, falsy version, no `PKG-INFO`: the warning is printed. -/
theorem resolveRest_warn (env : Env) (version : Option String) (argv : List String)
    (hsd : "sdist" ∉ argv) (hf : pyFalsy version = true) (hp : env.pkgInfo = none) :
    resolveRest env version argv = .ok (version, argv, true) := by
  have hcf : argv.contains "sdist" = false := by
    rw [← Bool.not_eq_true]
    intro hcc
    exact hsd (List.elem_iff.mp hcc)
  unfold resolveRest
  rw [hcf, hf, hp]
  simp

/-- When the last argument is the empty string and the second-to-last is
`--version`, popping both keeps any `sdist` occurrence. -/
theorem sdist_mem_dropTwo (env : Env) {lastA stl : String} {rest : List String}
    (hrev : env.argv.reverse = lastA :: stl :: rest)
    (hsd : "sdist" ∈ env.argv) (hstl : stl = "--version") (hla : lastA = "") :
    "sdist" ∈ env.argv.dropLast.dropLast := by
  have hd := argv_decomp hrev
  rw [hd, dropLast_two]
  rw [hd] at hsd
  rcases List.mem_append.mp hsd with h | h
  · exact h
  · exfalso
    subst hstl hla
    exact (by decide : ¬ ("sdist" ∈ (["--version", ""] : List String))) h

/-! Claim C1. -/

/-- C1 (counterexample): the claim says the script raises an exception only
when `sdist` is among the arguments with no `--version` value. Invoked with a
bare `sys.argv = ["setup.py"]` — no `sdist` anywhere — the script nevertheless
raises: `sys.argv[-2]` is an `IndexError` on a one-element list. -/
theorem C1_counterexample :
    runSetup ⟨["setup.py"], none, some ""⟩ = .error .indexError
      ∧ "sdist" ∉ (["setup.py"] : List String) := by
  constructor
  · rfl
  · decide

/-- C1 (amended): provided `sys.argv` has at least two elements (so that
`sys.argv[-2]` does not raise `IndexError`), every `Version` line of an
existing `PKG-INFO` has exactly two space-separated tokens (so the unpacking
does not raise `ValueError`), and `README.md` exists (so `open` does not raise
`FileNotFoundError`), the script raises an exception if and only if `sdist` is
among the command-line arguments and no nonempty version was supplied via
`--version` in second-to-last position. -/
theorem C1_raises_iff (env : Env) (hlen : 2 ≤ env.argv.length)
    (hpkg : wellformedPkg env) (hreadme : env.readme ≠ none) :
    (∃ e, runSetup env = .error e) ↔
      ("sdist" ∈ env.argv ∧ pyFalsy (cliVersion env) = true) := by
  obtain ⟨lastA, stl, rest, hrev⟩ := exists_rev_two env.argv hlen
  have hres := resolveVersion_eq env hrev
  have hcli := cliVersion_eq env hrev
  obtain ⟨ld, hld⟩ : ∃ ld, env.readme = some ld := by
    cases hr : env.readme with
    | none => exact absurd hr hreadme
    | some x => exact ⟨x, rfl⟩
  by_cases hc : (stl == "--version" && env.argv.contains "sdist") = true
  · have hc2 := hc
    rw [Bool.and_eq_true] at hc2
    have hsd : "sdist" ∈ env.argv := List.elem_iff.mp hc2.2
    have hstl : stl = "--version" := beq_iff_eq.mp hc2.1
    have hA := afterCli_pos env lastA stl hc
    rw [hcli, if_pos hc]
    by_cases hla : lastA = ""
    · apply iff_of_true
      · refine ⟨.missingVersion, runSetup_error env _ ?hpos⟩
        rw [hres]
        unfold resolveCore
        rw [hA]
        exact resolveRest_sdist env _ _ (sdist_mem_dropTwo env hrev hsd hstl hla)
          (by rw [hla]; rfl)
      · exact ⟨hsd, by rw [hla]; rfl⟩
    · apply iff_of_false
      · rintro ⟨e, he⟩
        have hok : resolveVersion env = .ok (some lastA, env.argv.dropLast.dropLast, false) := by
          rw [hres]
          unfold resolveCore
          rw [hA]
          exact resolveRest_truthy env _ _ (pyFalsy_some_false hla)
        rw [runSetup_ok env _ _ _ ld hok hld] at he
        cases he
      · rintro ⟨_, hfal⟩
        rw [pyFalsy_some_false hla] at hfal
        cases hfal
  · have hcf : (stl == "--version" && env.argv.contains "sdist") = false :=
      Bool.not_eq_true _ ▸ hc
    have hA := afterCli_neg env lastA stl hcf
    rw [hcli, if_neg hc]
    by_cases hsd : "sdist" ∈ env.argv
    · apply iff_of_true
      · refine ⟨.missingVersion, runSetup_error env _ ?hneg⟩
        rw [hres]
        unfold resolveCore
        rw [hA]
        exact resolveRest_sdist env none env.argv hsd rfl
      · exact ⟨hsd, rfl⟩
    · apply iff_of_false
      · rintro ⟨e, he⟩
        cases hp : env.pkgInfo with
        | some lines =>
          have hok : resolveVersion env = .ok (loopResultSpec lines none, env.argv, false) := by
            rw [hres]
            unfold resolveCore
            rw [hA]
            exact resolveRest_pkg env none env.argv hsd rfl lines hp (hpkg lines hp)
          rw [runSetup_ok env _ _ _ ld hok hld] at he
          cases he
        | none =>
          have hok : resolveVersion env = .ok (none, env.argv, true) := by
            rw [hres]
            unfold resolveCore
            rw [hA]
            exact resolveRest_warn env none env.argv hsd rfl hp
          rw [runSetup_ok env _ _ _ ld hok hld] at he
          cases he
      · rintro ⟨hmem, _⟩
        exact hsd hmem

/-- C1 (witness): the amended theorem applied to the concrete invocation
`setup.py sdist` with no `PKG-INFO` and an existing `README.md`. -/
theorem C1_raises_iff_witness :
    ∃ e, runSetup ⟨["setup.py", "sdist"], none, some "readme"⟩ = .error e :=
  (C1_raises_iff ⟨["setup.py", "sdist"], none, some "readme"⟩ (by decide)
    (fun lines h => nomatch h) (by decide)).mpr (by decide)

/-! Claim C2. -/

/-- With a falsy initial value the loop result is exactly the second token of
the last `"Version"` line, when one exists. -/
theorem loopResultSpec_none (lines : List String) :
    loopResultSpec lines none = secondTokenOfLastVersionLine lines := by
  unfold loopResultSpec
  cases secondTokenOfLastVersionLine lines with
  | none => rfl
  | some x => rfl

/-- C2 (counterexample): the claim's cases do not cover a run where `sdist` is
absent and `PKG-INFO` exists but none of its lines contains `"Version"`: the
code resolves no version from the file (it is not the second token of any
`"Version"` line) and prints no warning either — against both the claim's file
branch and its warning branch. -/
theorem C2_counterexample :
    resolveVersion ⟨["setup.py", "build"], some ["hello"], some "x"⟩
        = .ok (none, ["setup.py", "build"], false)
      ∧ "sdist" ∉ (["setup.py", "build"] : List String) := by
  constructor
  · rfl
  · decide

/-- C2 (amended): version resolution, in three cases. When the second-to-last
argument is `--version`, `sdist` appears and the last argument is nonempty,
the version is the last argument (no warning). When `sdist` is absent and
`PKG-INFO` exists with well-formed lines, the version is the second token of
the LAST line containing `"Version"` — staying `None` when there is no such
line — and no warning is printed. When `sdist` is absent and `PKG-INFO` does
not exist, the version stays `None` and the warning is printed. -/
theorem C2_resolution (env : Env) (hlen : 2 ≤ env.argv.length) :
    (∀ v, env.argv.getLast? = some v → v ≠ "" →
        env.argv.reverse[1]? = some "--version" → "sdist" ∈ env.argv →
        resolveVersion env = .ok (some v, env.argv.dropLast.dropLast, false))
  ∧ (∀ lines, "sdist" ∉ env.argv → env.pkgInfo = some lines → wellformedLines lines →
        resolveVersion env = .ok (secondTokenOfLastVersionLine lines, env.argv, false))
  ∧ ("sdist" ∉ env.argv → env.pkgInfo = none →
        resolveVersion env = .ok (none, env.argv, true)) := by
  obtain ⟨lastA, stl, rest, hrev⟩ := exists_rev_two env.argv hlen
  have hres := resolveVersion_eq env hrev
  have hlast : env.argv.getLast? = some lastA := by
    rw [← List.head?_reverse, hrev]
    rfl
  have hstl1 : env.argv.reverse[1]? = some stl := by
    rw [hrev]
    simp
  refine ⟨?p1, ?p2, ?p3⟩
  · intro v hv hne hstl hsd
    have hvA : v = lastA := by
      rw [hlast] at hv
      exact (Option.some.inj hv).symm
    have hstlA : stl = "--version" := by
      rw [hstl1] at hstl
      exact Option.some.inj hstl
    have hc : (stl == "--version" && env.argv.contains "sdist") = true := by
      rw [Bool.and_eq_true]
      exact ⟨beq_iff_eq.mpr hstlA, List.elem_iff.mpr hsd⟩
    rw [hres]
    unfold resolveCore
    rw [afterCli_pos env lastA stl hc]
    rw [hvA] at hne ⊢
    exact resolveRest_truthy env _ _ (pyFalsy_some_false hne)
  · intro lines hsd hp hw
    have hcf : (stl == "--version" && env.argv.contains "sdist") = false := by
      have hm : env.argv.contains "sdist" = false := by
        rw [← Bool.not_eq_true]
        intro hcc
        exact hsd (List.elem_iff.mp hcc)
      rw [hm, Bool.and_false]
    rw [hres]
    unfold resolveCore
    rw [afterCli_neg env lastA stl hcf]
    rw [← loopResultSpec_none lines]
    exact resolveRest_pkg env none env.argv hsd rfl lines hp hw
  · intro hsd hp
    have hcf : (stl == "--version" && env.argv.contains "sdist") = false := by
      have hm : env.argv.contains "sdist" = false := by
        rw [← Bool.not_eq_true]
        intro hcc
        exact hsd (List.elem_iff.mp hcc)
      rw [hm, Bool.and_false]
    rw [hres]
    unfold resolveCore
    rw [afterCli_neg env lastA stl hcf]
    exact resolveRest_warn env none env.argv hsd rfl hp

/-- C2 (witness): a concrete `setup.py sdist --version 3.3` invocation resolves
the version `3.3` from the command line and pops the last two arguments. -/
theorem C2_resolution_witness :
    resolveVersion ⟨["setup.py", "sdist", "--version", "3.3"], none, some "r"⟩
      = .ok (some "3.3", ["setup.py", "sdist"], false) :=
  (C2_resolution ⟨["setup.py", "sdist", "--version", "3.3"], none, some "r"⟩ (by decide)).1
    "3.3" (by decide) (by decide) (by decide) (by decide)

/-! Claims C3 and C7. -/

/-- C3: every run that reaches the `setup()` call passes the same static
fields, independent of any input: name `pymacaron-gcp`, license `BSD`, an empty
`install_requires` list and the fixed classifier list of the file. -/
theorem C3_static_fields (env : Env) (c : SetupCall) (h : runSetup env = .ok c) :
    c.name = "pymacaron-gcp" ∧ c.license = "BSD" ∧ c.install_requires = []
      ∧ c.classifiers = theClassifiers := by
  obtain ⟨v, argv, w, ld, _, _, hc⟩ := runSetup_ok_inv env c h
  subst hc
  exact ⟨rfl, rfl, rfl, rfl⟩

/-- C3 (witness): the static fields at the concrete invocation
`setup.py build` with no `PKG-INFO` and an existing `README.md`. -/
theorem C3_static_fields_witness :
    (mkSetupCall none ["setup.py", "build"] true "r").name = "pymacaron-gcp"
      ∧ (mkSetupCall none ["setup.py", "build"] true "r").license = "BSD"
      ∧ (mkSetupCall none ["setup.py", "build"] true "r").install_requires = []
      ∧ (mkSetupCall none ["setup.py", "build"] true "r").classifiers = theClassifiers :=
  C3_static_fields ⟨["setup.py", "build"], none, some "r"⟩ _ (by decide)

/-- C7: every run that reaches `setup()` has read `README.md` and passes
exactly its text as `long_description`, with content type `text/markdown`. -/
theorem C7_readme (env : Env) (c : SetupCall) (h : runSetup env = .ok c) :
    env.readme = some c.long_description
      ∧ c.long_description_content_type = "text/markdown" := by
  obtain ⟨v, argv, w, ld, _, hr, hc⟩ := runSetup_ok_inv env c h
  subst hc
  exact ⟨hr, rfl⟩

/-- C7 (witness): the README text `hello world` is passed through verbatim. -/
theorem C7_readme_witness :
    (Env.mk ["setup.py", "info"] none (some "hello world")).readme
        = some (mkSetupCall none ["setup.py", "info"] true "hello world").long_description
      ∧ (mkSetupCall none ["setup.py", "info"] true
          "hello world").long_description_content_type = "text/markdown" :=
  C7_readme ⟨["setup.py", "info"], none, some "hello world"⟩ _ (by decide)

/-! Claim C8. -/

/-- Lines 14-28 never change the argument vector they are given. -/
theorem resolveRest_argv (env : Env) (version : Option String) (argv : List String)
    {v2 : Option String} {argv2 : List String} {w : Bool}
    (h : resolveRest env version argv = .ok (v2, argv2, w)) : argv2 = argv := by
  unfold resolveRest at h
  split at h
  · cases h
  · split at h
    · split at h
      · cases h
      · split at h
        · rename_i lines hp
          cases hpl : parseVersionLoop lines version with
          | error e => rw [hpl] at h; cases h
          | ok x =>
            rw [hpl] at h
            simp only [Except.map, Except.ok.injEq, Prod.mk.injEq] at h
            exact h.2.1.symm
        · simp only [Except.ok.injEq, Prod.mk.injEq] at h
          exact h.2.1.symm
    · simp only [Except.ok.injEq, Prod.mk.injEq] at h
      exact h.2.1.symm

/-- C8: when the version is taken from the command line exactly the last two
elements are removed from `sys.argv` before `setup()` is called; in every other
case `sys.argv` reaches `setup()` unchanged. -/
theorem C8_argv_frame (env : Env) (c : SetupCall) (h : runSetup env = .ok c) :
    (cliVersion env ≠ none →
        c.argvAtCall = env.argv.dropLast.dropLast
          ∧ env.argv.length = c.argvAtCall.length + 2)
  ∧ (cliVersion env = none → c.argvAtCall = env.argv) := by
  obtain ⟨v, argv, w, ld, hres, hr, hc⟩ := runSetup_ok_inv env c h
  have hlen : 2 ≤ env.argv.length := by
    by_contra hlt
    push_neg at hlt
    have hshort : ∃ a, env.argv.reverse = [a] ∨ env.argv.reverse = [] := by
      match hx : env.argv.reverse with
      | [] => exact ⟨"", Or.inr rfl⟩
      | [a] => exact ⟨a, Or.inl rfl⟩
      | a :: b :: t =>
        have : env.argv.reverse.length = env.argv.length := by simp
        rw [hx] at this
        simp at this
        omega
    obtain ⟨a, ha⟩ := hshort
    have : resolveVersion env = .error .indexError := by
      unfold resolveVersion
      rcases ha with ha | ha <;> rw [ha]
    rw [this] at hres
    cases hres
  obtain ⟨lastA, stl, rest, hrev⟩ := exists_rev_two env.argv hlen
  have hres2 := resolveVersion_eq env hrev
  have hcli := cliVersion_eq env hrev
  rw [hres2] at hres
  unfold resolveCore at hres
  subst hc
  by_cases hcnd : (stl == "--version" && env.argv.contains "sdist") = true
  · rw [afterCli_pos env lastA stl hcnd] at hres
    have hav : argv = env.argv.dropLast.dropLast := resolveRest_argv env _ _ hres
    constructor
    · intro _
      constructor
      · exact hav
      · have hd := argv_decomp hrev
        rw [hav, hd, dropLast_two]
        simp [hd, mkSetupCall]
    · intro hnone
      rw [hcli, if_pos hcnd] at hnone
      cases hnone
  · rw [afterCli_neg env lastA stl (Bool.not_eq_true _ ▸ hcnd)] at hres
    have hav : argv = env.argv := resolveRest_argv env _ _ hres
    constructor
    · intro hne
      exfalso
      rw [hcli, if_neg hcnd] at hne
      exact hne rfl
    · intro _
      exact hav

/-- C8 (witness): under `setup.py sdist --version 2.0` the two `pop()` calls
drop exactly `--version` and `2.0`. -/
theorem C8_argv_frame_witness :
    (mkSetupCall (some "2.0") ["setup.py", "sdist"] false "r").argvAtCall
        = (["setup.py", "sdist", "--version", "2.0"] : List String).dropLast.dropLast
      ∧ (["setup.py", "sdist", "--version", "2.0"] : List String).length
        = (mkSetupCall (some "2.0") ["setup.py", "sdist"] false "r").argvAtCall.length + 2 :=
  (C8_argv_frame ⟨["setup.py", "sdist", "--version", "2.0"], none, some "r"⟩ _
    (by decide)).1 (by decide)

/-! Claim C9. -/

/-- Lines 30-31 amount to stripping any determined version: the empty string
is skipped by the truthiness guard but is its own strip. -/
theorem stripIfTruthy_some (s : String) : stripIfTruthy (some s) = some (pyStrip s) := by
  unfold stripIfTruthy
  by_cases hs : s = ""
  · subst hs
    rfl
  · rw [pyFalsy_some_false hs]
    rfl

/-- C9: whenever a version string is determined, `setup()` receives it with
leading and trailing whitespace stripped; when none is determined, `setup()`
receives `None`. -/
theorem C9_version_strip (env : Env) (c : SetupCall) (h : runSetup env = .ok c) :
    (∀ s argv w, resolveVersion env = .ok (some s, argv, w) → c.version = some (pyStrip s))
  ∧ (∀ argv w, resolveVersion env = .ok (none, argv, w) → c.version = none) := by
  obtain ⟨v, argv, w, ld, hres, hr, hc⟩ := runSetup_ok_inv env c h
  subst hc
  constructor
  · intro s argv2 w2 hres2
    rw [hres] at hres2
    simp only [Except.ok.injEq, Prod.mk.injEq] at hres2
    show stripIfTruthy v = some (pyStrip s)
    rw [hres2.1, stripIfTruthy_some]
  · intro argv2 w2 hres2
    rw [hres] at hres2
    simp only [Except.ok.injEq, Prod.mk.injEq] at hres2
    show stripIfTruthy v = none
    rw [hres2.1]
    rfl

/-- C9 (witness): the version `1.0.0` determined from `PKG-INFO` reaches
`setup()` stripped. -/
theorem C9_version_strip_witness :
    (mkSetupCall (some "1.0.0") ["setup.py", "build"] false "r").version
      = some (pyStrip "1.0.0") :=
  (C9_version_strip ⟨["setup.py", "build"], some ["Version: 1.0.0"], some "r"⟩ _
    (by decide)).1 "1.0.0" ["setup.py", "build"] false (by decide)

/-! Claim C10. -/

/-- C10: when the version is read from `PKG-INFO`, each line containing
`"Version"` overwrites the previous value, so the LAST such line wins (its
second space-separated token), provided every such line has exactly two
tokens; a matching line with any other token count aborts with `ValueError`. -/
theorem C10_last_version_line (lines : List String) (v0 : Option String) :
    (wellformedLines lines →
        parseVersionLoop lines v0 = .ok (loopResultSpec lines v0))
  ∧ ((∃ l ∈ lines, containsSub l "Version" = true ∧ (pySplitSpace l).length ≠ 2) →
        parseVersionLoop lines v0 = .error .valueError) :=
  ⟨fun hw => parseVersionLoop_ok lines v0 hw,
   fun hbad => parseVersionLoop_err lines v0 hbad⟩

/-- C10 (witness): on two `Version` lines the second one wins; a one-token
`Version` line raises `ValueError`. -/
theorem C10_last_version_line_witness :
    parseVersionLoop ["Version: 1.0", "x", "Version: 2.0"] none = .ok (some "2.0")
      ∧ parseVersionLoop ["Version"] (some "0") = .error .valueError := by
  constructor
  · rw [(C10_last_version_line ["Version: 1.0", "x", "Version: 2.0"] none).1 (by decide)]
    rfl
  · exact (C10_last_version_line ["Version"] (some "0")).2
      ⟨"Version", by decide, by decide, by decide⟩

/-!
The deployment-pipeline core of the repository — the `bin/` scripts that
`setup.py` ships via `scripts=glob("bin/*")` — is not part of the given source
tree. The definitions below are modelled from the specification's design of
that core (§§3-4, 7): ServiceSpec validation, the pipeline state machine, the
per-stage retry policy, and a run that records its adapter calls.
-/

namespace Pipeline

/-- Modelled from the spec: the deployment target backends (GKE, Cloud Run). -/
inductive Target where
  | gke
  | cloudRun
deriving DecidableEq, Repr

/-- Modelled from the spec: a ServiceSpec with its required fields — name,
container image reference, target backend; a missing field is `none`. -/
structure ServiceSpec where
  name : Option String
  image : Option String
  target : Option Target
deriving Repr

/-- Modelled from the spec: the error taxonomy of §7. -/
inductive PipelineError where
  | invalidSpec
  | authError
  | quotaExceeded
  | timeout
  | rollbackFailed
deriving DecidableEq, Repr

/-- Modelled from the spec: `QuotaExceeded` and `Timeout` are retryable, the
rest are fatal. -/
def PipelineError.retryable : PipelineError → Bool
  | .quotaExceeded => true
  | .timeout => true
  | _ => false

/-- Modelled from the spec: the build steps the resolver orders. -/
inductive BuildStep where
  | compile
  | containerize
  | tag
deriving DecidableEq, Repr

/-- Modelled from the spec: the remote calls a run can make on an adapter. -/
inductive AdapterCall where
  | deployCall
  | healthcheckCall
  | rollbackCall
deriving DecidableEq, Repr

/-- Modelled from the spec: whether every required ServiceSpec field is set. -/
def requiredFieldsPresent (s : ServiceSpec) : Bool :=
  s.name.isSome && s.image.isSome && s.target.isSome

/-- Modelled from the spec: the Build Stage Resolver — fail fast with
`InvalidSpec` on a missing required field, otherwise the ordered build steps. -/
def resolveBuildSteps (s : ServiceSpec) : Except PipelineError (List BuildStep) :=
  if requiredFieldsPresent s then .ok [.compile, .containerize, .tag]
  else .error .invalidSpec

/-- Modelled from the spec: the pipeline states of §4.1. -/
inductive RunState where
  | pending
  | building
  | pushing
  | deploying
  | verifying
  | done
  | failed
  | rolledBack
deriving DecidableEq, Repr

/-- Modelled from the spec: the events driving transitions in §4.1. -/
inductive Event where
  | start
  | buildOk
  | pushOk
  | deployOk
  | healthOk
  | healthFail
  | fatalFailure
  | rollbackOk
deriving DecidableEq, Repr

/-- Modelled from the spec: the transition function of the state machine of
§4.1; a pair with no listed transition leaves the state unchanged. -/
def next : RunState → Event → RunState
  | .pending, .start => .building
  | .building, .buildOk => .pushing
  | .pushing, .pushOk => .deploying
  | .deploying, .deployOk => .verifying
  | .verifying, .healthOk => .done
  | .verifying, .healthFail => .failed
  | .building, .fatalFailure => .failed
  | .pushing, .fatalFailure => .failed
  | .deploying, .fatalFailure => .failed
  | .verifying, .fatalFailure => .failed
  | .failed, .rollbackOk => .rolledBack
  | s, _ => s

/-- A run's state after a sequence of events. -/
def runTrace (s : RunState) (es : List Event) : RunState :=
  es.foldl next s

/-- Modelled from the spec: the configured retry maximum defaults to 3. -/
def defaultMaxRetries : Nat := 3

/-- Modelled from the spec: one stage transition attempt with retries —
`outcome n` is the result of the n-th attempt; a retryable error consumes one
remaining retry, a fatal error aborts at once. Returns the stage result and
the number of attempts made. -/
def retryLoop (outcome : Nat → Except PipelineError Unit) (attempt : Nat) :
    Nat → Except PipelineError Unit × Nat
  | 0 =>
    match outcome attempt with
    | .ok _ => (.ok (), attempt + 1)
    | .error e => (.error e, attempt + 1)
  | n + 1 =>
    match outcome attempt with
    | .ok _ => (.ok (), attempt + 1)
    | .error e =>
      if e.retryable then retryLoop outcome (attempt + 1) n else (.error e, attempt + 1)

/-- Modelled from the spec: a stage attempt starts at attempt 0 with the full
retry budget. -/
def attemptStage (outcome : Nat → Except PipelineError Unit) (maxRetries : Nat) :
    Except PipelineError Unit × Nat :=
  retryLoop outcome 0 maxRetries

/-- Modelled from the spec: a failing stage (retries exhausted or fatal error)
transitions the run to Failed; success moves to the stage's target state. -/
def runStage (onSuccess : RunState) (outcome : Nat → Except PipelineError Unit)
    (maxRetries : Nat) : RunState × Nat :=
  match attemptStage outcome maxRetries with
  | (.ok _, n) => (onSuccess, n)
  | (.error _, n) => (.failed, n)

/-- Modelled from the spec: an adapter behaviour — the outcome of the n-th
deploy call and of the health check. -/
structure Adapter where
  deployOutcome : Nat → Except PipelineError Unit
  healthcheckOutcome : Bool

/-- The observable outcome of a pipeline run: final state, surfaced error, and
the adapter calls made, in order. -/
structure RunResult where
  finalState : RunState
  errorOut : Option PipelineError
  calls : List AdapterCall
deriving Repr

/-- Modelled from the spec: a full run — resolve the build steps first
(fail fast, before any remote call), then deploy through the adapter with the
retry policy, then verify; every adapter call is recorded in order. -/
def runPipeline (s : ServiceSpec) (ad : Adapter) (maxRetries : Nat) : RunResult :=
  match resolveBuildSteps s with
  | .error e => ⟨.failed, some e, []⟩
  | .ok _ =>
    match attemptStage ad.deployOutcome maxRetries with
    | (.error e, n) => ⟨.failed, some e, List.replicate n .deployCall⟩
    | (.ok _, n) =>
      if ad.healthcheckOutcome
      then ⟨.done, none, List.replicate n .deployCall ++ [.healthcheckCall]⟩
      else ⟨.failed, none, List.replicate n .deployCall ++ [.healthcheckCall]⟩

/-! Claim C4. -/

/-- C4: a ServiceSpec missing a required field makes the Build Stage Resolver
fail the run with `InvalidSpec`, and no adapter call is ever made. -/
theorem C4_invalid_spec_fail_fast (s : ServiceSpec) (ad : Adapter) (m : Nat)
    (h : requiredFieldsPresent s = false) :
    (runPipeline s ad m).errorOut = some .invalidSpec
      ∧ (runPipeline s ad m).calls = []
      ∧ (runPipeline s ad m).finalState = .failed := by
  have hres : resolveBuildSteps s = .error .invalidSpec := by
    unfold resolveBuildSteps
    rw [h]
    rfl
  unfold runPipeline
  rw [hres]
  exact ⟨rfl, rfl, rfl⟩

/-- C4 (witness): a spec with no name fails fast with an empty call trace. -/
theorem C4_invalid_spec_fail_fast_witness :
    (runPipeline ⟨none, some "img:v2", some .gke⟩
        { deployOutcome := fun _ => .ok (), healthcheckOutcome := true } 3).errorOut
        = some .invalidSpec
      ∧ (runPipeline ⟨none, some "img:v2", some .gke⟩
          { deployOutcome := fun _ => .ok (), healthcheckOutcome := true } 3).calls = []
      ∧ (runPipeline ⟨none, some "img:v2", some .gke⟩
          { deployOutcome := fun _ => .ok (), healthcheckOutcome := true } 3).finalState
        = .failed :=
  C4_invalid_spec_fail_fast ⟨none, some "img:v2", some .gke⟩
    { deployOutcome := fun _ => .ok (), healthcheckOutcome := true } 3 (by decide)

/-! Claim C5. -/

/-- With every attempt failing retryably, the loop consumes its whole budget:
`fuel + 1` attempts starting from any attempt index. -/
theorem retryLoop_exhaust (outcome : Nat → Except PipelineError Unit) (e : PipelineError)
    (h1 : e.retryable = true) (h2 : ∀ n, outcome n = .error e) :
    ∀ fuel attempt, retryLoop outcome attempt fuel = (.error e, attempt + fuel + 1) := by
  intro fuel
  induction fuel with
  | zero =>
    intro attempt
    unfold retryLoop
    rw [h2 attempt]
  | succ n ih =>
    intro attempt
    unfold retryLoop
    rw [h2 attempt]
    show (if e.retryable = true then retryLoop outcome (attempt + 1) n
        else (Except.error e, attempt + 1)) = (Except.error e, attempt + (n + 1) + 1)
    rw [h1]
    simp only [if_true]
    rw [ih (attempt + 1)]
    congr 1
    omega

/-- C5: a stage whose every transition attempt fails with a retryable error is
retried exactly up to the configured maximum — `maxRetries + 1` attempts, the
default maximum being 3 — after which the run transitions to Failed. -/
theorem C5_retry_exhaustion (onSuccess : RunState)
    (outcome : Nat → Except PipelineError Unit) (e : PipelineError) (m : Nat)
    (h1 : e.retryable = true) (h2 : ∀ n, outcome n = .error e) :
    runStage onSuccess outcome m = (.failed, m + 1) ∧ defaultMaxRetries = 3 := by
  unfold runStage attemptStage
  rw [retryLoop_exhaust outcome e h1 h2 m 0]
  constructor
  · simp
  · rfl

/-- C5 (witness): a stage that always times out under the default maximum of 3
retries fails after 4 attempts. -/
theorem C5_retry_exhaustion_witness :
    runStage .verifying (fun _ => .error .timeout) 3 = (.failed, 4)
      ∧ defaultMaxRetries = 3 :=
  C5_retry_exhaustion .verifying (fun _ => .error .timeout) .timeout 3 (by decide)
    (fun n => rfl)

/-! Claim C6. -/

/-- C6: Done and RolledBack are terminal states of the pipeline state machine:
no sequence of events moves a run out of Done or RolledBack, and in particular
a run that reached Done is never again in Building, Pushing or Deploying. -/
theorem C6_done_terminal :
    (∀ es : List Event, runTrace .done es = .done)
  ∧ (∀ es : List Event, runTrace .rolledBack es = .rolledBack)
  ∧ (∀ es : List Event, runTrace .done es ≠ .building
      ∧ runTrace .done es ≠ .pushing ∧ runTrace .done es ≠ .deploying) := by
  have hdone : ∀ es : List Event, runTrace .done es = .done := by
    intro es
    induction es with
    | nil => rfl
    | cons e t ih =>
      show runTrace (next .done e) t = .done
      have hstep : next .done e = .done := by cases e <;> rfl
      rw [hstep]
      exact ih
  have hrb : ∀ es : List Event, runTrace .rolledBack es = .rolledBack := by
    intro es
    induction es with
    | nil => rfl
    | cons e t ih =>
      show runTrace (next .rolledBack e) t = .rolledBack
      have hstep : next .rolledBack e = .rolledBack := by cases e <;> rfl
      rw [hstep]
      exact ih
  refine ⟨hdone, hrb, fun es => ?done3⟩
  rw [hdone es]
  exact ⟨by decide, by decide, by decide⟩

end Pipeline

end PymacaronGcp
